import Mathlib

/-!
Verification of the multi-supplier part-search core of
`InteractiveHtmlBom/core/part_search.py`.

The Python module is shallowly embedded: Python/JSON runtime values become the
inductive `PyVal` (floats are modelled as the rational numbers they denote,
which is exact for every decimal literal appearing in JSON responses), dicts
become association lists with the first-match lookup and in-place-overwrite
update of Python dicts, and exceptions become `Except PyErr`.  Each `try` /
`except (E1, E2)` block in the source is embedded by filtering exactly the
caught error classes.  Network traffic and logging are modelled by an explicit
`Effect` trace, and each HTTP call site is parameterised by an `HttpOutcome`
(network failure, or a status code together with an optional parsed JSON body,
`Option.none` standing for a body on which `response.json()` raises).
-/

namespace PartSearch

/-- Python runtime values that can appear in this module: `None`, booleans,
integers, floats (as the exact rationals they denote), strings, lists and
string-keyed dicts (JSON object keys are always strings). -/
inductive PyVal where
  | none
  | bool (b : Bool)
  | int (n : Int)
  | float (q : Rat)
  | str (s : String)
  | list (xs : List PyVal)
  | dict (entries : List (String × PyVal))

/-- Python exception classes relevant to `part_search.py`. -/
inductive PyErr where
  | valueError
  | typeError
  | keyError
  | attributeError
  | indexError
deriving DecidableEq

/-- Whether a `PyVal` is a dict; the record lists handled by
`select_best_part` are annotated `List[Dict]` in the source. -/
def PyVal.isDict : PyVal → Bool
  | .dict _ => true
  | _ => false

/-- First-match lookup in a dict, as in Python `d[k]` / `d.get(k)` (real
Python dicts cannot contain duplicate keys, so first-match agrees with them). -/
def lookupKey : List (String × PyVal) → String → Option PyVal
  | [], _ => Option.none
  | (k, v) :: rest, key => if k = key then Option.some v else lookupKey rest key

/-- Python `k in d` for a dict. -/
def hasKey (d : List (String × PyVal)) (k : String) : Bool :=
  (lookupKey d k).isSome

/-- Python `d[k] = v`: overwrite the value in place if the key exists,
otherwise append the new key at the end (dict insertion order). -/
def dictSet : List (String × PyVal) → String → PyVal → List (String × PyVal)
  | [], k, v => [(k, v)]
  | (k1, v1) :: rest, k, v =>
    if k1 = k then (k, v) :: rest else (k1, v1) :: dictSet rest k v

/-- Python truthiness (`if x:`). -/
def pyTruthy : PyVal → Bool
  | .none => false
  | .bool b => b
  | .int n => n != 0
  | .float q => q != 0
  | .str s => s ≠ ""
  | .list xs => !xs.isEmpty
  | .dict d => !d.isEmpty

/-- Truthiness of an `Optional[str]` argument (`None` and `""` are falsy). -/
def optTruthy : Option String → Bool
  | Option.none => false
  | Option.some s => s ≠ ""

/-- Numeric value of a nonempty all-digit character run. -/
def digitsToNat (cs : List Char) : Nat :=
  cs.foldl (fun n c => 10 * n + (c.toNat - 48)) 0

/-- Parse a nonempty string of ASCII digits; `Option.none` otherwise. -/
def digitsVal (cs : List Char) : Option Nat :=
  if cs ≠ [] ∧ cs.all Char.isDigit then Option.some (digitsToNat cs) else Option.none

/-- Python string-strip whitespace (ASCII; other Unicode whitespace is not
modelled). -/
def pySpace (c : Char) : Bool :=
  c = ' ' || c = '\t' || c = '\n' || c = '\r' || c = '\x0b' || c = '\x0c'

/-- Strip leading and trailing whitespace. -/
def trimChars (cs : List Char) : List Char :=
  ((cs.dropWhile pySpace).reverse.dropWhile pySpace).reverse

/-- Split a character list at the first separator character, if any. -/
def splitAtChar (p : Char → Bool) : List Char → List Char × Option (List Char)
  | [] => ([], Option.none)
  | c :: cs =>
    if p c then ([], Option.some cs)
    else
      let r := splitAtChar p cs
      (c :: r.1, r.2)

/-- Signed digit run. -/
def signedDigits (cs : List Char) : Option Int :=
  match cs with
  | '+' :: rest => (digitsVal rest).map Int.ofNat
  | '-' :: rest => (digitsVal rest).map (fun n => -(n : Int))
  | _ => (digitsVal cs).map Int.ofNat

/-- Python `int(s)` on a string: surrounding whitespace is stripped, then an
optional sign followed by digits.  (PEP-515 underscore separators and non-ASCII
digits are not modelled; they cannot occur in the spec's inputs.) -/
def parsePyInt (s : String) : Option Int :=
  signedDigits (trimChars s.toList)

/-- Mantissa of a Python float literal: `digits`, `digits.`, `.digits` or
`digits.digits` (a second dot makes the digit check fail), yielding the exact
rational value. -/
def parseMantissa (cs : List Char) : Option Rat :=
  match splitAtChar (fun c => c = '.') cs with
  | (a, Option.none) => (digitsVal a).map (fun n => (n : Rat))
  | (a, Option.some b) =>
    if a = [] ∧ b = [] then Option.none
    else
      -- the value digits(a++b) / 10^|b|, written with `Rat.divInt` so that it
      -- evaluates inside the kernel
      (digitsVal (a ++ b)).map (fun n => Rat.divInt (n : Int) (Int.ofNat (10 ^ b.length)))

/-- Python `float(s)` on a string: optional sign, mantissa, optional exponent
after `e`/`E`.  (`inf` / `nan` literals and underscore separators are not
modelled; they cannot occur in the inputs the spec discusses.) -/
def parsePyFloat (s : String) : Option Rat :=
  let cs := trimChars s.toList
  let me := splitAtChar (fun c => c = 'e' || c = 'E') cs
  let mant :=
    match me.1 with
    | '+' :: rest => parseMantissa rest
    | '-' :: rest => (parseMantissa rest).map Neg.neg
    | _ => parseMantissa me.1
  match me.2 with
  | Option.none => mant
  | Option.some e =>
    match mant, signedDigits e with
    | Option.some q, Option.some k =>
      -- q·10^k (resp. q/10^-k), written with `Rat.divInt` over the mantissa's
      -- numerator and denominator so that it evaluates inside the kernel
      Option.some
        (if 0 ≤ k then Rat.divInt (q.num * Int.ofNat (10 ^ k.toNat)) (Int.ofNat q.den)
         else Rat.divInt q.num (Int.ofNat (q.den * 10 ^ (-k).toNat)))
    | _, _ => Option.none

/-- Python `s.replace(',', '')`: every comma removed. -/
def stripCommas (s : String) : String :=
  String.mk (s.toList.filter (fun c => c ≠ ','))

/-- Python `int(x)` truncates a float toward zero. -/
def ratTrunc (q : Rat) : Int :=
  if q < 0 then -(Rat.floor (-q)) else Rat.floor q

/-- Python `int(x)`; every failure (`ValueError` on a malformed string,
`TypeError` on `None`/lists/dicts) yields `Option.none` — both call sites in
the source catch exactly `(ValueError, TypeError)`. -/
def pyIntOpt : PyVal → Option Int
  | .int n => Option.some n
  | .bool b => Option.some (if b then 1 else 0)
  | .float q => Option.some (ratTrunc q)
  | .str s => parsePyInt s
  | _ => Option.none

/-- The composite `float(str(x).replace(',', ''))` used for price fields.
`float(str(x))` round-trips ints and floats exactly, parses numeric strings
after comma removal, and fails on `None`, booleans (`"True"`), lists and dicts
(their `str` never parses as a float). -/
def pyFloatStr : PyVal → Option Rat
  | .int n => Option.some (n : Rat)
  | .float q => Option.some q
  | .str s => parsePyFloat (stripCommas s)
  | _ => Option.none

/-- Fractional digits of `0 ≤ q < 1`, to at most `fuel` places.  Every float
is a dyadic rational, whose decimal expansion terminates well within the fuel,
so the expansion is exact on every value a float can take. -/
def fracDigits : Nat → Rat → String
  | 0, _ => ""
  | n + 1, q =>
    if q = 0 then ""
    else
      let d : Int := Rat.floor (q * 10)
      String.singleton (Char.ofNat (48 + d.toNat)) ++ fracDigits n (q * 10 - (d : Rat))

/-- Python `str` of a nonnegative float (e.g. `str(2.0) = "2.0"`,
`str(0.25) = "0.25"`).  Scientific notation for very large/small magnitudes is
not modelled (unreachable for the values the spec discusses). -/
def floatReprNN (q : Rat) : String :=
  let ip := Rat.floor q
  let fs := fracDigits 1200 (q - (ip : Rat))
  toString ip ++ "." ++ (if fs = "" then "0" else fs)

/-- Python `str` of a float. -/
def floatRepr (q : Rat) : String :=
  if q < 0 then "-" ++ floatReprNN (-q) else floatReprNN q

/-- Single-quote character, used by Python `repr` of strings. -/
def sq : String := String.singleton (Char.ofNat 39)

mutual

/-- Python `repr`.  For strings we always single-quote (quote escaping inside
the repr'd string is not modelled; no claim depends on it). -/
def pyRepr : PyVal → String
  | .none => "None"
  | .bool true => "True"
  | .bool false => "False"
  | .int n => toString n
  | .float q => floatRepr q
  | .str s => sq ++ s ++ sq
  | .list xs => "[" ++ pyReprList xs ++ "]"
  | .dict d => "\x7b" ++ pyReprPairs d ++ "\x7d"

/-- Comma-joined `repr`s of list elements. -/
def pyReprList : List PyVal → String
  | [] => ""
  | [x] => pyRepr x
  | x :: xs => pyRepr x ++ ", " ++ pyReprList xs

/-- Comma-joined `repr(k): repr(v)` pairs of a dict. -/
def pyReprPairs : List (String × PyVal) → String
  | [] => ""
  | [(k, v)] => sq ++ k ++ sq ++ ": " ++ pyRepr v
  | (k, v) :: ps => sq ++ k ++ sq ++ ": " ++ pyRepr v ++ ", " ++ pyReprPairs ps

end

/-- Python `str(v)`: identity on strings, `repr` otherwise. -/
def pyStr (v : PyVal) : String :=
  match v with
  | .str s => s
  | _ => pyRepr v

/-- Python `str.isdigit()` (ASCII digits; other Unicode digit classes are not
modelled). -/
def strIsDigit (s : String) : Bool :=
  s.toList ≠ [] ∧ s.toList.all Char.isDigit

/-- Whether the first character list is an initial segment of the second. -/
def leadMatch : List Char → List Char → Bool
  | [], _ => true
  | _ :: _, [] => false
  | a :: as, b :: bs => a = b && leadMatch as bs

/-- Whether `needle` occurs contiguously in `hay`. -/
def hasRun (needle : List Char) : List Char → Bool
  | [] => needle.isEmpty
  | c :: cs => leadMatch needle (c :: cs) || hasRun needle cs

/-- Substring test, Python `needle in s` for strings. -/
def strContains (s needle : String) : Bool :=
  hasRun needle.toList s.toList

/-- Whether a Python list contains the string `t` (`t in xs`): only string
elements can compare equal to a string. -/
def listHasStr (xs : List PyVal) (t : String) : Bool :=
  xs.any fun v =>
    match v with
    | .str u => u = t
    | _ => false

/-- Python `k in v` for a string key `k`: key membership for dicts, substring
for strings, element membership for lists; `TypeError` on scalars. -/
def pyContains (k : String) : PyVal → Except PyErr Bool
  | .dict d => Except.ok (hasKey d k)
  | .str s => Except.ok (strContains s k)
  | .list xs => Except.ok (listHasStr xs k)
  | _ => Except.error PyErr.typeError

/-- Python `v[k]` for a string key: dict lookup (`KeyError` when missing),
`TypeError` on strings/lists (string indices must be integers) and scalars. -/
def pyIndexStr (v : PyVal) (k : String) : Except PyErr PyVal :=
  match v with
  | .dict d =>
    match lookupKey d k with
    | Option.some x => Except.ok x
    | Option.none => Except.error PyErr.keyError
  | _ => Except.error PyErr.typeError

/-- Python `v[0]`: head of a list, first character of a string, `KeyError` for
a dict (whose keys here are strings, never the integer `0`), `TypeError` on
scalars, `IndexError` on an empty sequence. -/
def pyIndex0 : PyVal → Except PyErr PyVal
  | .list (x :: _) => Except.ok x
  | .list [] => Except.error PyErr.indexError
  | .str s =>
    match s.toList with
    | c :: _ => Except.ok (.str (String.singleton c))
    | [] => Except.error PyErr.indexError
  | .dict _ => Except.error PyErr.keyError
  | _ => Except.error PyErr.typeError

/-- Python iteration `for x in v`: list elements, string characters, dict keys;
`TypeError` on scalars. -/
def pyIterate : PyVal → Except PyErr (List PyVal)
  | .list xs => Except.ok xs
  | .str s => Except.ok (s.toList.map fun c => .str (String.singleton c))
  | .dict d => Except.ok (d.map fun kv => .str kv.1)
  | _ => Except.error PyErr.typeError

/-- Python `v[:5]` followed by iteration over the slice: lists and strings
slice, dicts raise `TypeError` (unhashable slice), scalars raise `TypeError`. -/
def pySliceIter5 : PyVal → Except PyErr (List PyVal)
  | .list xs => Except.ok (xs.take 5)
  | .str s => Except.ok ((s.toList.take 5).map fun c => .str (String.singleton c))
  | _ => Except.error PyErr.typeError

/-- The `PartSearchResult` dataclass.  Python dataclasses do not enforce the
field annotations (`part_number: str`, `stock: int`, ...), so every field that
the source fills with a raw `dict.get` keeps type `PyVal`; `supplier` and
`value` are always genuine strings and `price` always a float. -/
structure PartSearchResult where
  supplier : String
  part_number : PyVal
  manufacturer : PyVal
  description : PyVal
  value : String
  footprint : PyVal
  stock : PyVal
  price : Rat
  url : PyVal
  datasheet : PyVal
  lcsc_part : PyVal := .str ""

/-- Stock extraction shared by `select_best_part` and `_parse_jlcpcb_result`:
`stock = 0`, then `int(comp['stock'])` if the key `'stock'` is present, else
`int(comp['stockQty'])` if that key is present (`elif`: an unparsable `stock`
does not fall back to `stockQty`), each attempt catching
`(ValueError, TypeError)` and leaving `0`. -/
def stockOfDict (d : List (String × PyVal)) : Int :=
  if hasKey d "stock" then
    ((lookupKey d "stock").bind pyIntOpt).getD 0
  else if hasKey d "stockQty" then
    ((lookupKey d "stockQty").bind pyIntOpt).getD 0
  else 0

/-- Price extraction shared by the sort key of `select_best_part` and
`_parse_jlcpcb_result`: `price = 0.0`, then if `'price'` is present,
`float(str(comp['price']).replace(',', ''))` catching
`(ValueError, TypeError)`. -/
def priceOfDict (d : List (String × PyVal)) : Rat :=
  match lookupKey d "price" with
  | Option.some v => (pyFloatStr v).getD 0
  | Option.none => 0

/-- Parsed stock of a candidate value; non-dicts can never reach a positive
stock in the filter loop (indexing them with a string key raises `TypeError`,
which the loop's `try` catches, leaving `0`). -/
def stockOfVal : PyVal → Int
  | .dict d => stockOfDict d
  | _ => 0

/-- Parsed price of a candidate value (the non-dict branch is unreachable in
the sort key, which is only applied to in-stock elements — always dicts). -/
def priceOfVal : PyVal → Rat
  | .dict d => priceOfDict d
  | _ => 0

/-- The filter-loop body of `select_best_part` on one element: computing the
stock raises `TypeError` when the element is a scalar (`'stock' in comp` on a
non-container), and yields the parsed stock otherwise. -/
def compStockRaw : PyVal → Except PyErr Int
  | .dict d => Except.ok (stockOfDict d)
  | .str _ => Except.ok 0
  | .list _ => Except.ok 0
  | _ => Except.error PyErr.typeError

/-- The in-place mutation `comp['_stock'] = stock` applied to an in-stock
element (only dicts can be in stock). -/
def mutateComp (v : PyVal) : PyVal :=
  match v with
  | .dict d => if 0 < stockOfDict d then .dict (dictSet d "_stock" (.int (stockOfDict d))) else v
  | _ => v

/-- The filter loop of `select_best_part`: returns the element list after
mutation together with the `in_stock` sublist (which aliases the mutated
elements).  An uncaught `TypeError` aborts the loop; mutations already applied
before the raise are not tracked (no caller observes them). -/
def buildInStock : List PyVal → Except PyErr (List PyVal × List PyVal)
  | [] => Except.ok ([], [])
  | v :: rest =>
    match compStockRaw v with
    | Except.error e => Except.error e
    | Except.ok s =>
      match buildInStock rest with
      | Except.error e => Except.error e
      | Except.ok (ms, ins) =>
        let v2 := if 0 < s then mutateComp v else v
        Except.ok (v2 :: ms, if 0 < s then v2 :: ins else ins)

/-- The sort key `(-comp.get('_stock', 0), price)` of `select_best_part`.
Only in-stock elements — dicts carrying an integer `'_stock'` — are ever
sorted, so the other branches are unreachable defaults. -/
def sortKey : PyVal → Int × Rat
  | .dict d =>
    (-(match lookupKey d "_stock" with
       | Option.some (.int n) => n
       | _ => 0),
     priceOfDict d)
  | _ => (0, 0)

/-- Comparison used by the stable sort: Python sorts key tuples ascending in
lexicographic order, so `a` precedes `b` when `key a ≤ key b`. -/
def keyLe (a b : PyVal) : Bool :=
  decide ((sortKey a).1 < (sortKey b).1 ∨
    ((sortKey a).1 = (sortKey b).1 ∧ (sortKey a).2 ≤ (sortKey b).2))

/-- Restore the iterated container after element mutation: only a list's
elements can have been mutated. -/
def remake (components : PyVal) (mutated : List PyVal) : PyVal :=
  match components with
  | .list _ => .list mutated
  | other => other

/-- `JLCPCBClient.select_best_part`.  Returns the selected record (if any)
together with the container after the loop's in-place mutations.  `if not
components: return None`; then the in-stock filter; `return components[0]` as
fallback; otherwise a stable sort by `(-stock, price)` and the first element. -/
def select_best_part (components : PyVal) : Except PyErr (Option PyVal × PyVal) :=
  if pyTruthy components = false then Except.ok (Option.none, components)
  else
    match pyIterate components with
    | Except.error e => Except.error e
    | Except.ok elems =>
      match buildInStock elems with
      | Except.error e => Except.error e
      | Except.ok (mutated, inStock) =>
        match inStock with
        | [] =>
          match pyIndex0 components with
          | Except.error e => Except.error e
          | Except.ok first => Except.ok (Option.some first, components)
        | _ :: _ =>
          Except.ok ((inStock.mergeSort keyLe).head?, remake components mutated)

/-- Outcome of one HTTP request: the request itself may raise (connection
error / timeout), or return a response with a status code and a body;
`Option.none` as body models a body on which `response.json()` raises. -/
inductive HttpOutcome where
  | failure
  | response (status : Nat) (body : Option PyVal)

/-- A backend call behaviour that satisfies the spec's "network failure,
non-2xx HTTP status, or malformed JSON" condition. -/
def badOutcome : HttpOutcome → Bool
  | .failure => true
  | .response st body => st != 200 || body.isNone

/-- One query to the JLCSearch `components/list.json` endpoint: the `search`
term, the optional `package` narrowing, and the `limit`. -/
structure JlcQuery where
  term : String
  package : Option String
  limit : Nat
deriving DecidableEq

/-- Observable side effects of the adapters: network requests and log events. -/
inductive Effect where
  | netGet (q : JlcQuery)
  | netTokenPost
  | netDkSearch (term : String)
  | netMouserSearch (term : String)
  | logWarning (tag : String)
  | logError (tag : String)
deriving DecidableEq

/-- Whether an effect is a log event (of either level). -/
def Effect.isLog : Effect → Bool
  | .logWarning _ => true
  | .logError _ => true
  | _ => false

/-- Whether an effect is a network request. -/
def Effect.isNet : Effect → Bool
  | .netGet _ => true
  | .netTokenPost => true
  | .netDkSearch _ => true
  | .netMouserSearch _ => true
  | _ => false

/-- The recognised configuration options (`PartSearcher.__init__` docstring:
`digikey_client_id`, `digikey_client_secret`, `mouser_api_key`, all strings). -/
structure Config where
  digikey_client_id : Option String := Option.none
  digikey_client_secret : Option String := Option.none
  mouser_api_key : Option String := Option.none

/-- `JLCPCBClient.search_components`, parameterised by the backend's response
to each query.  Any exception inside the `try` (the request itself,
`response.json()`, or `.get` on a non-dict body) is caught and logged as an
error; a non-200 status logs a warning; both return `[]`. -/
def search_components (oracle : JlcQuery → HttpOutcome) (term : String)
    (pkg : Option String) (limit : Nat) : PyVal × List Effect :=
  let q : JlcQuery := ⟨term, if optTruthy pkg then pkg else Option.none, limit⟩
  match oracle q with
  | .failure => (.list [], [.netGet q, .logError "JLCSearch search error"])
  | .response st body =>
    if st ≠ 200 then (.list [], [.netGet q, .logWarning "JLCSearch API error"])
    else
      match body with
      | Option.none => (.list [], [.netGet q, .logError "JLCSearch search error"])
      | Option.some data =>
        match data with
        | .dict d => ((lookupKey d "components").getD (.list []), [.netGet q])
        | _ => (.list [], [.netGet q, .logError "JLCSearch search error"])

/-- The `lcsc_part` computation of `_parse_jlcpcb_result` on a dict:
`f"C{comp['lcsc']}"` when `str(comp['lcsc']).isdigit()`, else
`str(comp['lcsc'])`; `elif 'lcscCode'` keeps the raw value. -/
def lcscOfDict (d : List (String × PyVal)) : PyVal :=
  match lookupKey d "lcsc" with
  | Option.some v =>
    if strIsDigit (pyStr v) then .str ("C" ++ pyStr v) else .str (pyStr v)
  | Option.none =>
    match lookupKey d "lcscCode" with
    | Option.some v => v
    | Option.none => .str ""

/-- `PartSearcher._parse_jlcpcb_result`.  Total on dicts; on any non-dict the
first string-keyed access raises (`TypeError` from indexing, or
`AttributeError` from `.get`), and `search_jlcpcb` has no enclosing `try`. -/
def parse_jlcpcb_result (comp : PyVal) (value : String) (footprint : Option String) :
    Except PyErr PartSearchResult :=
  match comp with
  | .dict d =>
    let lcsc := lcscOfDict d
    Except.ok
      { supplier := "JLCPCB"
        part_number := (lookupKey d "mfrPartNo").getD (.str "")
        manufacturer := (lookupKey d "mfr").getD
          ((lookupKey d "manufacturer").getD ((lookupKey d "Manufacturer").getD (.str "")))
        description := (lookupKey d "description").getD ((lookupKey d "Description").getD (.str ""))
        value := value
        footprint := (lookupKey d "package").getD
          (.str (if optTruthy footprint then footprint.getD "" else ""))
        stock := .int (stockOfDict d)
        price := priceOfDict d
        url := .str ("https://jlcpcb.com/part/" ++ pyStr lcsc)
        datasheet := .str ""
        lcsc_part := lcsc }
  | .str s => Except.error (if strContains s "lcsc" then PyErr.typeError else PyErr.attributeError)
  | .list xs => Except.error
      (if listHasStr xs "lcsc" ∨ listHasStr xs "lcscCode" then PyErr.typeError
       else PyErr.attributeError)
  | _ => Except.error PyErr.typeError

/-- Apply a fallible parser to every element; the first raise propagates
(used where the loop has no enclosing `try`). -/
def mapAll (f : PyVal → Except PyErr PartSearchResult) :
    List PyVal → Except PyErr (List PartSearchResult)
  | [] => Except.ok []
  | v :: vs =>
    match f v with
    | Except.error e => Except.error e
    | Except.ok r =>
      match mapAll f vs with
      | Except.error e => Except.error e
      | Except.ok rs => Except.ok (r :: rs)

/-- `PartSearcher.search_jlcpcb`.  Fast path: when a manufacturer part number
is supplied, search by `"<manufacturer> <mfg_part>"` (or `"<mfg_part>"`); if
the hit list is truthy and the selected best candidate is truthy, return just
that parsed record.  Otherwise the general value(/footprint) search, parsing
the top 5 hits.  There is no `try` in this function. -/
def search_jlcpcb (oracle : JlcQuery → HttpOutcome) (value : String)
    (footprint manufacturer mfg_part : Option String) :
    Except PyErr (List PartSearchResult) × List Effect :=
  let general : List Effect → Except PyErr (List PartSearchResult) × List Effect :=
    fun tr0 =>
      let (components, t2) :=
        if optTruthy footprint then search_components oracle value footprint 10
        else search_components oracle value Option.none 10
      if pyTruthy components then
        match pySliceIter5 components with
        | Except.error e => (Except.error e, tr0 ++ t2)
        | Except.ok items =>
          (mapAll (fun c => parse_jlcpcb_result c value footprint) items, tr0 ++ t2)
      else (Except.ok [], tr0 ++ t2)
  if optTruthy mfg_part then
    let term :=
      if optTruthy manufacturer then manufacturer.getD "" ++ " " ++ mfg_part.getD ""
      else mfg_part.getD ""
    let (components, t1) := search_components oracle term Option.none 10
    if pyTruthy components then
      match select_best_part components with
      | Except.error e => (Except.error e, t1)
      | Except.ok (Option.some best, _) =>
        if pyTruthy best then
          match parse_jlcpcb_result best value footprint with
          | Except.error e => (Except.error e, t1)
          | Except.ok r => (Except.ok [r], t1)
        else general t1
      | Except.ok (Option.none, _) => general t1
    else general t1
  else general []

/-- The shared search-term construction of `search_digikey` / `search_mouser`:
`f"{value} {footprint}" if footprint else value`, replaced by
`f"{component_type} {value}[ {footprint}]"` when a component type is given. -/
def buildSearchTerm (value : String) (footprint ctype : Option String) : String :=
  if optTruthy ctype then
    if optTruthy footprint then ctype.getD "" ++ " " ++ value ++ " " ++ footprint.getD ""
    else ctype.getD "" ++ " " ++ value
  else if optTruthy footprint then value ++ " " ++ footprint.getD ""
  else value

/-- Replay of a `try` block that catches `(ValueError, KeyError)` around a
price computation, leaving the initial `0.0` on a caught exception. -/
def catchValueKey (e : Except PyErr Rat) : Except PyErr Rat :=
  match e with
  | Except.error PyErr.valueError => Except.ok 0
  | Except.error PyErr.keyError => Except.ok 0
  | other => other

/-- Python `float(x)`: exact on ints/floats/bools, string parsing
(`ValueError` when malformed), `TypeError` on anything else. -/
def pyFloatFn : PyVal → Except PyErr Rat
  | .int n => Except.ok (n : Rat)
  | .float q => Except.ok q
  | .bool b => Except.ok (if b then 1 else 0)
  | .str s =>
    match parsePyFloat s with
    | Option.some q => Except.ok q
    | Option.none => Except.error PyErr.valueError
  | _ => Except.error PyErr.typeError

/-- Body of the Digi-Key price `try`: `float(pricing[0].get('UnitPrice', 0.0))`.
`pricing[0]` on a dict raises `KeyError` (caught), on scalars `TypeError`
(uncaught); `.get` on a non-dict element raises `AttributeError` (uncaught);
`float` of `None`/containers raises `TypeError` (uncaught). -/
def dkPriceRaw (pricing : PyVal) : Except PyErr Rat :=
  match pyIndex0 pricing with
  | Except.error e => Except.error e
  | Except.ok first =>
    match first with
    | .dict f => pyFloatFn ((lookupKey f "UnitPrice").getD (.float 0))
    | _ => Except.error PyErr.attributeError

/-- The Digi-Key price extraction: `price = 0.0`, and only `if pricing:` the
guarded computation, catching `(ValueError, KeyError)`. -/
def dkPrice (pricing : PyVal) : Except PyErr Rat :=
  if pyTruthy pricing then catchValueKey (dkPriceRaw pricing) else Except.ok 0

/-- `PartSearcher._parse_digikey_result`.  Note that
`product.get('QuantityAvailable', 0)` performs no coercion at all: the raw
value lands in the `stock` field (only an absent key defaults to `0`). -/
def parse_digikey_result (product : PyVal) (value : String) (footprint : Option String) :
    Except PyErr PartSearchResult :=
  match product with
  | .dict p =>
    -- the price `try` block runs before the dataclass constructor evaluates
    -- the `Manufacturer` chain
    match dkPrice ((lookupKey p "StandardPricing").getD (.list [])) with
    | Except.error e => Except.error e
    | Except.ok price =>
      match (lookupKey p "Manufacturer").getD (.dict []) with
      | .dict m =>
        Except.ok
          { supplier := "Digi-Key"
            part_number := (lookupKey p "ManufacturerPartNumber").getD (.str "")
            manufacturer := (lookupKey m "Name").getD (.str "")
            description := (lookupKey p "DetailedDescription").getD (.str "")
            value := value
            footprint := .str (if optTruthy footprint then footprint.getD "" else "")
            stock := (lookupKey p "QuantityAvailable").getD (.int 0)
            price := price
            url := (lookupKey p "ProductUrl").getD (.str "")
            datasheet := (lookupKey p "DatasheetUrl").getD (.str "") }
      | _ => Except.error PyErr.attributeError
  | _ => Except.error PyErr.attributeError

/-- Extraction of the first digit run of a string, Python
`re.search(r'(\d+)', s)`. -/
def firstDigitRun : List Char → Option Nat
  | [] => Option.none
  | c :: cs =>
    if c.isDigit then Option.some (digitsToNat (c :: cs.takeWhile Char.isDigit))
    else firstDigitRun cs

/-- Body of the Mouser price `try`:
`float(price_breaks[0].get('Price', 0.0).replace(',', ''))`.  `.replace` on a
non-string — in particular on the `0.0` default taken when the `Price` key is
absent — raises `AttributeError`, which `(ValueError, KeyError)` does not
catch. -/
def mouserPriceRaw (pb : PyVal) : Except PyErr Rat :=
  match pyIndex0 pb with
  | Except.error e => Except.error e
  | Except.ok first =>
    match first with
    | .dict f =>
      match (lookupKey f "Price").getD (.float 0) with
      | .str s =>
        match parsePyFloat (stripCommas s) with
        | Option.some q => Except.ok q
        | Option.none => Except.error PyErr.valueError
      | _ => Except.error PyErr.attributeError
    | _ => Except.error PyErr.attributeError

/-- The Mouser price extraction: `price = 0.0`, and only `if price_breaks:`
the guarded computation, catching `(ValueError, KeyError)`. -/
def mouserPrice (pb : PyVal) : Except PyErr Rat :=
  if pyTruthy pb then catchValueKey (mouserPriceRaw pb) else Except.ok 0

/-- `PartSearcher._parse_mouser_result`.  Stock comes from the first digit run
of `str(part.get('Availability', '0'))` (so it is always a nonnegative
integer), price from the `PriceBreaks` block. -/
def parse_mouser_result (part : PyVal) (value : String) (footprint : Option String) :
    Except PyErr PartSearchResult :=
  match part with
  | .dict p =>
    let availability := (lookupKey p "Availability").getD (.str "0")
    let stock : Int := ((firstDigitRun (pyStr availability).toList).getD 0 : Nat)
    match mouserPrice ((lookupKey p "PriceBreaks").getD (.list [])) with
    | Except.error e => Except.error e
    | Except.ok price =>
      Except.ok
        { supplier := "Mouser"
          part_number := (lookupKey p "ManufacturerPartNumber").getD (.str "")
          manufacturer := (lookupKey p "Manufacturer").getD (.str "")
          description := (lookupKey p "Description").getD (.str "")
          value := value
          footprint := .str (if optTruthy footprint then footprint.getD "" else "")
          stock := .int stock
          price := price
          url := (lookupKey p "ProductDetailUrl").getD (.str "")
          datasheet := (lookupKey p "DataSheetUrl").getD (.str "") }
  | _ => Except.error PyErr.attributeError

/-- Parse the top-N loop under the adapters' outer `try`: the first raising
element aborts the loop, keeping the records appended so far (the flag records
whether an exception was raised, hence logged). -/
def collectParsed (f : PyVal → Except PyErr PartSearchResult) :
    List PyVal → List PartSearchResult × Bool
  | [] => ([], false)
  | v :: vs =>
    match f v with
    | Except.error _ => ([], true)
    | Except.ok r =>
      let (rs, raised) := collectParsed f vs
      (r :: rs, raised)

/-- The tail of `search_digikey` after a usable token was obtained: the
keyword search request, status check, JSON decode, `'Products'` check, and the
top-5 parse loop — all inside the outer `except Exception` handler, which
returns the partially accumulated results. -/
def dkAfterToken (searchO : HttpOutcome) (term value : String) (footprint : Option String) :
    List PartSearchResult × List Effect :=
  let net := Effect.netDkSearch term
  match searchO with
  | .failure => ([], [.netTokenPost, net, .logError "Digi-Key search error"])
  | .response st body =>
    if st ≠ 200 then ([], [.netTokenPost, net, .logWarning "Digi-Key search failed"])
    else
      match body with
      | Option.none => ([], [.netTokenPost, net, .logError "Digi-Key search error"])
      | Option.some data =>
        match pyContains "Products" data with
        | Except.error _ => ([], [.netTokenPost, net, .logError "Digi-Key search error"])
        | Except.ok false => ([], [.netTokenPost, net])
        | Except.ok true =>
          match pyIndexStr data "Products" with
          | Except.error _ => ([], [.netTokenPost, net, .logError "Digi-Key search error"])
          | Except.ok prods =>
            match pySliceIter5 prods with
            | Except.error _ => ([], [.netTokenPost, net, .logError "Digi-Key search error"])
            | Except.ok items =>
              let (rs, raised) :=
                collectParsed (fun v => parse_digikey_result v value footprint) items
              (rs, [.netTokenPost, net] ++
                (if raised then [.logError "Digi-Key search error"] else []))

/-- `PartSearcher.search_digikey`.  Without a truthy `digikey_client_id` the
function only logs a warning and returns `[]` (no request is made).  The
token request failing, returning non-200, or yielding unusable JSON all end
with `[]`; the outer `except Exception` means no exception ever escapes. -/
def search_digikey (cfg : Config) (tokenO searchO : HttpOutcome) (value : String)
    (footprint ctype : Option String) : List PartSearchResult × List Effect :=
  if optTruthy cfg.digikey_client_id = false then
    ([], [.logWarning "Digi-Key API keys not configured"])
  else
    let term := buildSearchTerm value footprint ctype
    match tokenO with
    | .failure => ([], [.netTokenPost, .logError "Digi-Key search error"])
    | .response st body =>
      if st ≠ 200 then ([], [.netTokenPost, .logError "Digi-Key token request failed"])
      else
        match body with
        | Option.none => ([], [.netTokenPost, .logError "Digi-Key search error"])
        | Option.some tj =>
          match tj with
          | .dict _ => dkAfterToken searchO term value footprint
          | _ => ([], [.netTokenPost, .logError "Digi-Key search error"])

/-- `PartSearcher.search_mouser`.  Without a truthy `mouser_api_key` the
function only logs a warning and returns `[]`; otherwise one POST, with the
same outer `except Exception` protection as Digi-Key. -/
def search_mouser (cfg : Config) (searchO : HttpOutcome) (value : String)
    (footprint ctype : Option String) : List PartSearchResult × List Effect :=
  if optTruthy cfg.mouser_api_key = false then
    ([], [.logWarning "Mouser API key not configured"])
  else
    let term := buildSearchTerm value footprint ctype
    let net := Effect.netMouserSearch term
    match searchO with
    | .failure => ([], [net, .logError "Mouser search error"])
    | .response st body =>
      if st ≠ 200 then ([], [net, .logWarning "Mouser search failed"])
      else
        match body with
        | Option.none => ([], [net, .logError "Mouser search error"])
        | Option.some data =>
          match pyContains "SearchResults" data with
          | Except.error _ => ([], [net, .logError "Mouser search error"])
          | Except.ok false => ([], [net])
          | Except.ok true =>
            match pyIndexStr data "SearchResults" with
            | Except.error _ => ([], [net, .logError "Mouser search error"])
            | Except.ok sr =>
              match pyContains "Parts" sr with
              | Except.error _ => ([], [net, .logError "Mouser search error"])
              | Except.ok false => ([], [net])
              | Except.ok true =>
                match pyIndexStr sr "Parts" with
                | Except.error _ => ([], [net, .logError "Mouser search error"])
                | Except.ok parts =>
                  match pySliceIter5 parts with
                  | Except.error _ => ([], [net, .logError "Mouser search error"])
                  | Except.ok items =>
                    let (rs, raised) :=
                      collectParsed (fun v => parse_mouser_result v value footprint) items
                    (rs, [net] ++ (if raised then [.logError "Mouser search error"] else []))

/-- The behaviour of all backends during one `search_all` invocation. -/
structure Behaviour where
  jlc : JlcQuery → HttpOutcome
  dkToken : HttpOutcome
  dkSearch : HttpOutcome
  mouser : HttpOutcome

/-- `PartSearcher.search_all`: query the three adapters in order and include a
supplier's key only when its result list is truthy (nonempty).  An exception
from `search_jlcpcb` propagates (there is no `try` here). -/
def search_all (cfg : Config) (b : Behaviour) (value : String)
    (footprint ctype manufacturer mfg_part : Option String) :
    Except PyErr (List (String × List PartSearchResult)) × List Effect :=
  let (jr, t1) := search_jlcpcb b.jlc value footprint manufacturer mfg_part
  match jr with
  | Except.error e => (Except.error e, t1)
  | Except.ok jl =>
    let (dk, t2) := search_digikey cfg b.dkToken b.dkSearch value footprint ctype
    let (mo, t3) := search_mouser cfg b.mouser value footprint ctype
    (Except.ok
      ((if jl.isEmpty then [] else [("JLCPCB", jl)]) ++
       (if dk.isEmpty then [] else [("Digi-Key", dk)]) ++
       (if mo.isEmpty then [] else [("Mouser", mo)])),
     t1 ++ t2 ++ t3)

/-! ### Dictionary update lemmas -/

theorem lookupKey_dictSet_self (d : List (String × PyVal)) (k : String) (x : PyVal) :
    lookupKey (dictSet d k x) k = Option.some x := by
  induction d with
  | nil => simp [dictSet, lookupKey]
  | cons kv rest ih =>
    obtain ⟨k1, v1⟩ := kv
    by_cases h : k1 = k
    · subst h
      simp [dictSet, lookupKey]
    · simp [dictSet, lookupKey, h, ih]

theorem lookupKey_dictSet_ne (d : List (String × PyVal)) (k k' : String) (x : PyVal)
    (h : k' ≠ k) : lookupKey (dictSet d k x) k' = lookupKey d k' := by
  induction d with
  | nil => simp [dictSet, lookupKey, Ne.symm h]
  | cons kv rest ih =>
    obtain ⟨k1, v1⟩ := kv
    by_cases h1 : k1 = k
    · subst h1
      simp [dictSet, lookupKey, Ne.symm h]
    · simp only [dictSet, if_neg h1, lookupKey]
      by_cases h2 : k1 = k'
      · simp [h2]
      · simp [h2, ih]

theorem hasKey_dictSet_ne (d : List (String × PyVal)) (k k' : String) (x : PyVal)
    (h : k' ≠ k) : hasKey (dictSet d k x) k' = hasKey d k' := by
  simp [hasKey, lookupKey_dictSet_ne d k k' x h]

theorem stockOfDict_dictSet_stock (d : List (String × PyVal)) (x : PyVal) :
    stockOfDict (dictSet d "_stock" x) = stockOfDict d := by
  simp only [stockOfDict,
    hasKey_dictSet_ne d "_stock" "stock" x (by decide),
    hasKey_dictSet_ne d "_stock" "stockQty" x (by decide),
    lookupKey_dictSet_ne d "_stock" "stock" x (by decide),
    lookupKey_dictSet_ne d "_stock" "stockQty" x (by decide)]

theorem priceOfDict_dictSet_stock (d : List (String × PyVal)) (x : PyVal) :
    priceOfDict (dictSet d "_stock" x) = priceOfDict d := by
  simp only [priceOfDict, lookupKey_dictSet_ne d "_stock" "price" x (by decide)]

/-! ### The mutation `comp['_stock'] = stock` preserves every other field -/

theorem stockOfVal_mutateComp (v : PyVal) : stockOfVal (mutateComp v) = stockOfVal v := by
  cases v with
  | dict d =>
    by_cases h : 0 < stockOfDict d
    · simp [mutateComp, if_pos h, stockOfVal, stockOfDict_dictSet_stock]
    · simp [mutateComp, if_neg h]
  | none => rfl
  | bool b => rfl
  | int n => rfl
  | float q => rfl
  | str s => rfl
  | list xs => rfl

theorem priceOfVal_mutateComp (v : PyVal) : priceOfVal (mutateComp v) = priceOfVal v := by
  cases v with
  | dict d =>
    by_cases h : 0 < stockOfDict d
    · simp [mutateComp, if_pos h, priceOfVal, priceOfDict_dictSet_stock]
    · simp [mutateComp, if_neg h]
  | none => rfl
  | bool b => rfl
  | int n => rfl
  | float q => rfl
  | str s => rfl
  | list xs => rfl

theorem isDict_mutateComp (v : PyVal) : (mutateComp v).isDict = v.isDict := by
  cases v with
  | dict d =>
    by_cases h : 0 < stockOfDict d
    · simp [mutateComp, if_pos h, PyVal.isDict]
    · simp [mutateComp, if_neg h]
  | none => rfl
  | bool b => rfl
  | int n => rfl
  | float q => rfl
  | str s => rfl
  | list xs => rfl

theorem sortKey_mutateComp (v : PyVal) (hd : v.isDict = true) (hs : 0 < stockOfVal v) :
    sortKey (mutateComp v) = (-(stockOfVal v), priceOfVal v) := by
  cases v with
  | dict d =>
    have hs' : 0 < stockOfDict d := hs
    simp only [mutateComp, if_pos hs', sortKey, stockOfVal, priceOfVal,
      lookupKey_dictSet_self, priceOfDict_dictSet_stock]
  | none => simp [PyVal.isDict] at hd
  | bool b => simp [PyVal.isDict] at hd
  | int n => simp [PyVal.isDict] at hd
  | float q => simp [PyVal.isDict] at hd
  | str s => simp [PyVal.isDict] at hd
  | list xs => simp [PyVal.isDict] at hd

/-! ### The sort comparison is transitive and total -/

theorem keyLe_trans (a b c : PyVal) (hab : keyLe a b = true) (hbc : keyLe b c = true) :
    keyLe a c = true := by
  simp only [keyLe, decide_eq_true_eq] at *
  rcases hab with h1 | ⟨h1, h2⟩ <;> rcases hbc with h3 | ⟨h3, h4⟩
  · exact Or.inl (lt_trans h1 h3)
  · exact Or.inl (h3 ▸ h1)
  · exact Or.inl (h1 ▸ h3)
  · exact Or.inr ⟨h1.trans h3, le_trans h2 h4⟩

theorem keyLe_total (a b : PyVal) : keyLe a b || keyLe b a := by
  simp only [keyLe, Bool.or_eq_true, decide_eq_true_eq]
  rcases lt_trichotomy (sortKey a).1 (sortKey b).1 with h | h | h
  · exact Or.inl (Or.inl h)
  · rcases le_total (sortKey a).2 (sortKey b).2 with h2 | h2
    · exact Or.inl (Or.inr ⟨h, h2⟩)
    · exact Or.inr (Or.inr ⟨h.symm, h2⟩)
  · exact Or.inr (Or.inl h)

/-! ### Head of a stable merge sort: minimality and first-of-the-minima -/

theorem head_mergeSort_min {α : Type} (le : α → α → Bool)
    (trans : ∀ a b c : α, le a b → le b c → le a c)
    (total : ∀ a b : α, le a b || le b a)
    (x : α) (t : List α) :
    ∃ h rest, (x :: t).mergeSort le = h :: rest ∧ h ∈ x :: t ∧
      ∀ y ∈ x :: t, le h y = true := by
  have hlen : ((x :: t).mergeSort le).length = t.length + 1 := by
    simp [List.length_mergeSort]
  match hms : (x :: t).mergeSort le with
  | [] => rw [hms] at hlen; simp at hlen
  | h :: rest =>
    refine ⟨h, rest, rfl, ?_, ?_⟩
    · have : h ∈ (x :: t).mergeSort le := by rw [hms]; exact List.mem_cons_self h rest
      exact List.mem_mergeSort.mp this
    · intro y hy
      have hy' : y ∈ (x :: t).mergeSort le := List.mem_mergeSort.mpr hy
      rw [hms] at hy'
      rcases List.mem_cons.mp hy' with rfl | hy''
      · have := total y y
        simpa using this
      · have hs := List.sorted_mergeSort trans total (x :: t)
        rw [hms] at hs
        exact List.rel_of_pairwise_cons hs hy''

theorem head_mergeSort_first {α : Type} (le : α → α → Bool)
    (trans : ∀ a b c : α, le a b → le b c → le a c)
    (total : ∀ a b : α, le a b || le b a)
    (m : α) (z : List α) :
    ∀ (u : List α), (∀ y ∈ u, le y m = false) →
      (∀ y ∈ u ++ m :: z, le m y = true) →
      ((u ++ m :: z).mergeSort le).head? = Option.some m := by
  intro u
  induction u with
  | nil =>
    intro _ hmin
    obtain ⟨l₁, l₂, h1, h2, h3⟩ := List.mergeSort_cons trans total m z
    cases l₁ with
    | nil => simp only [List.nil_append] at h1; simp [h1]
    | cons c l₁' =>
      exfalso
      have hc : c ∈ c :: l₁' := List.mem_cons_self c l₁'
      have hc2 : c ∈ z := by
        have : c ∈ (c :: l₁') ++ l₂ := List.mem_append_left l₂ hc
        rw [← h2] at this
        exact List.mem_mergeSort.mp this
      have := h3 c hc
      have hle := hmin c (List.mem_cons_of_mem m hc2)
      simp [hle] at this
  | cons a u' ih =>
    intro hu hmin
    obtain ⟨l₁, l₂, h1, h2, h3⟩ := List.mergeSort_cons trans total a (u' ++ m :: z)
    have ih' := ih (fun y hy => hu y (List.mem_cons_of_mem a hy))
      (fun y hy => hmin y (by
        rcases List.mem_append.mp hy with h | h
        · exact List.mem_append_left _ (List.mem_cons_of_mem a h)
        · exact List.mem_append_right _ h))
    cases l₁ with
    | nil =>
      exfalso
      simp only [List.nil_append] at h2
      rw [h2] at ih'
      cases l₂ with
      | nil => simp at ih'
      | cons c l₂' =>
        simp only [List.head?_cons, Option.some.injEq] at ih'
        have hs := List.sorted_mergeSort trans total (a :: (u' ++ m :: z))
        rw [h1] at hs
        simp only [List.nil_append] at hs
        have ham : le a c = true := List.rel_of_pairwise_cons hs (List.mem_cons_self c l₂')
        rw [ih'] at ham
        have := hu a (List.mem_cons_self a u')
        rw [this] at ham
        exact Bool.false_ne_true ham
    | cons c l₁' =>
      have hhead : ((a :: u') ++ m :: z).mergeSort le = c :: (l₁' ++ a :: l₂) := by
        rw [show (a :: u') ++ m :: z = a :: (u' ++ m :: z) from rfl, h1]
        simp
      have hc : ((u' ++ m :: z).mergeSort le).head? = Option.some c := by
        rw [h2]
        simp
      rw [ih'] at hc
      have hcm : c = m := by injection hc.symm
      rw [hhead, hcm]
      simp

/-! ### Characterisation of `select_best_part` on lists of dicts -/

theorem isDict_exists {v : PyVal} (h : v.isDict = true) :
    ∃ d, v = PyVal.dict d := by
  cases v with
  | dict d => exact ⟨d, rfl⟩
  | none => simp [PyVal.isDict] at h
  | bool b => simp [PyVal.isDict] at h
  | int n => simp [PyVal.isDict] at h
  | float q => simp [PyVal.isDict] at h
  | str s => simp [PyVal.isDict] at h
  | list ys => simp [PyVal.isDict] at h

theorem buildInStock_eq (xs : List PyVal) (h : ∀ v ∈ xs, v.isDict = true) :
    buildInStock xs = Except.ok (xs.map mutateComp,
      (xs.filter fun v => decide (0 < stockOfVal v)).map mutateComp) := by
  induction xs with
  | nil => rfl
  | cons v rest ih =>
    obtain ⟨d, rfl⟩ := isDict_exists (h v (List.mem_cons_self v rest))
    have ih' := ih (fun w hw => h w (List.mem_cons_of_mem _ hw))
    by_cases hs : 0 < stockOfDict d
    · simp only [buildInStock, compStockRaw, ih', if_pos hs, List.map_cons,
        List.filter_cons]
      have : decide (0 < stockOfVal (PyVal.dict d)) = true := by
        simpa [stockOfVal] using hs
      simp [this]
    · simp only [buildInStock, compStockRaw, ih', if_neg hs, List.map_cons,
        List.filter_cons]
      have hd : decide (0 < stockOfVal (PyVal.dict d)) = false := by
        simpa [stockOfVal] using hs
      have hm : mutateComp (PyVal.dict d) = PyVal.dict d := by
        simp [mutateComp, if_neg hs]
      simp [hd, hm]

theorem select_best_part_no_stock (x : PyVal) (t : List PyVal)
    (h : ∀ v ∈ x :: t, v.isDict = true)
    (hfil : (x :: t).filter (fun v => decide (0 < stockOfVal v)) = []) :
    select_best_part (.list (x :: t)) = Except.ok (Option.some x, .list (x :: t)) := by
  have hb := buildInStock_eq (x :: t) h
  rw [hfil] at hb
  simp [select_best_part, pyTruthy, pyIterate, hb, pyIndex0]

theorem select_best_part_instock (xs : List PyVal)
    (h : ∀ v ∈ xs, v.isDict = true)
    (hfil : xs.filter (fun v => decide (0 < stockOfVal v)) ≠ []) :
    select_best_part (.list xs) =
      Except.ok ((((xs.filter (fun v => decide (0 < stockOfVal v))).map
          mutateComp).mergeSort keyLe).head?,
        .list (xs.map mutateComp)) := by
  have hne : xs ≠ [] := by
    intro hx
    rw [hx] at hfil
    exact hfil rfl
  obtain ⟨x, t, rfl⟩ := List.exists_cons_of_ne_nil hne
  have hb := buildInStock_eq (x :: t) h
  obtain ⟨w, ws, hF⟩ :=
    List.exists_cons_of_ne_nil hfil
  rw [hF] at hb
  simp only [List.map_cons] at hb
  simp only [select_best_part, pyTruthy, List.isEmpty_cons, Bool.not_false,
    Bool.true_eq_false, if_neg, pyIterate, hb, remake, hF, List.map_cons]
  rfl

theorem keyLe_mutate_iff (v w : PyVal) (hv : v.isDict = true) (hw : w.isDict = true)
    (hsv : 0 < stockOfVal v) (hsw : 0 < stockOfVal w) :
    keyLe (mutateComp v) (mutateComp w) = true ↔
      (-(stockOfVal v) < -(stockOfVal w) ∨
        (-(stockOfVal v) = -(stockOfVal w) ∧ priceOfVal v ≤ priceOfVal w)) := by
  simp [keyLe, sortKey_mutateComp v hv hsv, sortKey_mutateComp w hw hsw]

/-- C1: for every list of candidate records containing at least one in-stock
record (`stock > 0`), `select_best_part` returns a record whose stock is the
maximum stock among the in-stock records, and, among in-stock records sharing
that maximum stock, whose price is the minimum. -/
theorem select_best_part_max_stock_min_price (xs : List PyVal)
    (hdict : ∀ v ∈ xs, v.isDict = true)
    (hstock : ∃ v ∈ xs, 0 < stockOfVal v) :
    ∃ r v, v ∈ xs ∧ 0 < stockOfVal v ∧ r = mutateComp v ∧
      select_best_part (.list xs) =
        Except.ok (Option.some r, .list (xs.map mutateComp)) ∧
      (∀ w ∈ xs, 0 < stockOfVal w → stockOfVal w ≤ stockOfVal r) ∧
      (∀ w ∈ xs, 0 < stockOfVal w → stockOfVal w = stockOfVal r →
        priceOfVal r ≤ priceOfVal w) := by
  obtain ⟨v0, hv0, hs0⟩ := hstock
  have hfil : xs.filter (fun v => decide (0 < stockOfVal v)) ≠ [] := by
    intro hF
    have hm : v0 ∈ xs.filter (fun v => decide (0 < stockOfVal v)) :=
      List.mem_filter.mpr ⟨hv0, by simpa using hs0⟩
    rw [hF] at hm
    exact (List.not_mem_nil v0) hm
  have hsel := select_best_part_instock xs hdict hfil
  obtain ⟨w, ws, hF⟩ := List.exists_cons_of_ne_nil hfil
  obtain ⟨hd, rest, hms, hmem, hall⟩ :=
    head_mergeSort_min keyLe keyLe_trans keyLe_total (mutateComp w) (ws.map mutateComp)
  have hconsmap : mutateComp w :: ws.map mutateComp = (w :: ws).map mutateComp := by
    simp
  have hmem' : hd ∈ (w :: ws).map mutateComp := by rw [← hconsmap]; exact hmem
  obtain ⟨v, hvF, hveq⟩ := List.mem_map.mp hmem'
  rw [← hF] at hvF
  have hvxs : v ∈ xs := (List.mem_filter.mp hvF).1
  have hvs : 0 < stockOfVal v := by
    have := (List.mem_filter.mp hvF).2
    simpa using this
  have hvd : v.isDict = true := hdict v hvxs
  refine ⟨hd, v, hvxs, hvs, hveq.symm, ?_, ?_, ?_⟩
  · rw [hsel, hF]
    simp only [List.map_cons, hms, List.head?_cons]
  · intro u hu hus
    have humem : mutateComp u ∈ mutateComp w :: ws.map mutateComp := by
      rw [hconsmap, ← hF]
      exact List.mem_map_of_mem mutateComp (List.mem_filter.mpr ⟨hu, by simpa using hus⟩)
    have hle := hall (mutateComp u) humem
    rw [← hveq] at hle
    have hud : u.isDict = true := hdict u hu
    rw [keyLe_mutate_iff v u hvd hud hvs hus] at hle
    rw [← hveq, stockOfVal_mutateComp]
    rcases hle with h1 | ⟨h1, _⟩
    · omega
    · omega
  · intro u hu hus hueq
    have humem : mutateComp u ∈ mutateComp w :: ws.map mutateComp := by
      rw [hconsmap, ← hF]
      exact List.mem_map_of_mem mutateComp (List.mem_filter.mpr ⟨hu, by simpa using hus⟩)
    have hle := hall (mutateComp u) humem
    rw [← hveq] at hle
    have hud : u.isDict = true := hdict u hu
    rw [keyLe_mutate_iff v u hvd hud hvs hus] at hle
    rw [← hveq, stockOfVal_mutateComp] at hueq
    rw [← hveq, priceOfVal_mutateComp]
    rcases hle with h1 | ⟨_, h2⟩
    · omega
    · exact h2

/-- Witness for C1 at a concrete candidate list. -/
theorem select_best_part_max_stock_min_price_witness :
    ∃ r v, v ∈ [PyVal.dict [("stock", PyVal.int 5), ("price", PyVal.str "2.10")],
        PyVal.dict [("stock", PyVal.int 9), ("price", PyVal.str "3")]] ∧
      0 < stockOfVal v ∧ r = mutateComp v ∧
      select_best_part (.list [PyVal.dict [("stock", PyVal.int 5), ("price", PyVal.str "2.10")],
        PyVal.dict [("stock", PyVal.int 9), ("price", PyVal.str "3")]]) =
        Except.ok (Option.some r,
          .list ([PyVal.dict [("stock", PyVal.int 5), ("price", PyVal.str "2.10")],
            PyVal.dict [("stock", PyVal.int 9), ("price", PyVal.str "3")]].map mutateComp)) ∧
      (∀ w ∈ [PyVal.dict [("stock", PyVal.int 5), ("price", PyVal.str "2.10")],
          PyVal.dict [("stock", PyVal.int 9), ("price", PyVal.str "3")]],
        0 < stockOfVal w → stockOfVal w ≤ stockOfVal r) ∧
      (∀ w ∈ [PyVal.dict [("stock", PyVal.int 5), ("price", PyVal.str "2.10")],
          PyVal.dict [("stock", PyVal.int 9), ("price", PyVal.str "3")]],
        0 < stockOfVal w → stockOfVal w = stockOfVal r →
        priceOfVal r ≤ priceOfVal w) :=
  select_best_part_max_stock_min_price _
    (by intro v hv; fin_cases hv <;> rfl)
    ⟨PyVal.dict [("stock", PyVal.int 9), ("price", PyVal.str "3")],
      by simp, by norm_num [stockOfVal, stockOfDict, hasKey, lookupKey, pyIntOpt]⟩

/-- C6: `select_best_part` returns `None` on the empty list, and on a
non-empty list with no in-stock record returns the first element of the
original input list. -/
theorem select_best_part_empty_and_fallback :
    select_best_part (.list []) = Except.ok (Option.none, .list []) ∧
    ∀ (x : PyVal) (t : List PyVal), (∀ v ∈ x :: t, v.isDict = true) →
      (∀ v ∈ x :: t, stockOfVal v ≤ 0) →
      select_best_part (.list (x :: t)) = Except.ok (Option.some x, .list (x :: t)) := by
  refine ⟨rfl, ?_⟩
  intro x t hdict hns
  apply select_best_part_no_stock x t hdict
  rw [List.filter_eq_nil_iff]
  intro v hv
  simp only [decide_eq_true_eq, not_lt]
  exact hns v hv

/-- Witness for C6 at a concrete out-of-stock list. -/
theorem select_best_part_empty_and_fallback_witness :
    select_best_part (.list []) = Except.ok (Option.none, .list []) ∧
    select_best_part (.list [PyVal.dict [("stock", PyVal.str "N/A")], PyVal.dict []]) =
      Except.ok (Option.some (PyVal.dict [("stock", PyVal.str "N/A")]),
        .list [PyVal.dict [("stock", PyVal.str "N/A")], PyVal.dict []]) :=
  ⟨select_best_part_empty_and_fallback.1,
    select_best_part_empty_and_fallback.2 _ _
      (by intro v hv; fin_cases hv <;> rfl)
      (by intro v hv; fin_cases hv <;> decide)⟩

/-- C7: the selection is stable.  For an input list decomposed as
`pre ++ a :: (mid ++ b :: post)` whose in-stock records `a` (earlier) and `b`
(later) have equal stock and equal price and are optimal under the
(descending stock, ascending price) key — no record in `pre` attaining the
optimum — `select_best_part` returns the earlier record `a`. -/
theorem select_best_part_stable (pre mid post : List PyVal) (a b : PyVal)
    (hdict : ∀ v ∈ pre ++ a :: (mid ++ b :: post), v.isDict = true)
    (ha : 0 < stockOfVal a) (hb : 0 < stockOfVal b)
    (heqs : stockOfVal a = stockOfVal b) (heqp : priceOfVal a = priceOfVal b)
    (hopt : ∀ w ∈ pre ++ a :: (mid ++ b :: post), 0 < stockOfVal w →
      stockOfVal w ≤ stockOfVal a ∧
        (stockOfVal w = stockOfVal a → priceOfVal a ≤ priceOfVal w))
    (hpre : ∀ w ∈ pre, 0 < stockOfVal w →
      ¬(stockOfVal w = stockOfVal a ∧ priceOfVal w = priceOfVal a)) :
    select_best_part (.list (pre ++ a :: (mid ++ b :: post))) =
      Except.ok (Option.some (mutateComp a),
        .list ((pre ++ a :: (mid ++ b :: post)).map mutateComp)) := by
  set xs := pre ++ a :: (mid ++ b :: post) with hxs
  have haxs : a ∈ xs := by
    rw [hxs]
    exact List.mem_append_right pre (List.mem_cons_self a _)
  have had : a.isDict = true := hdict a haxs
  have hfilsplit : xs.filter (fun v => decide (0 < stockOfVal v)) =
      pre.filter (fun v => decide (0 < stockOfVal v)) ++
        a :: (mid ++ b :: post).filter (fun v => decide (0 < stockOfVal v)) := by
    rw [hxs, List.filter_append, List.filter_cons]
    simp [ha]
  have hfil : xs.filter (fun v => decide (0 < stockOfVal v)) ≠ [] := by
    rw [hfilsplit]
    intro h
    exact List.cons_ne_nil a _ (List.append_eq_nil.mp h).2
  have hsel := select_best_part_instock xs hdict hfil
  have hmapsplit : (xs.filter (fun v => decide (0 < stockOfVal v))).map mutateComp =
      (pre.filter (fun v => decide (0 < stockOfVal v))).map mutateComp ++
        mutateComp a :: ((mid ++ b :: post).filter (fun v => decide (0 < stockOfVal v))).map mutateComp := by
    rw [hfilsplit, List.map_append, List.map_cons]
  have hu : ∀ y ∈ (pre.filter (fun v => decide (0 < stockOfVal v))).map mutateComp,
      keyLe y (mutateComp a) = false := by
    intro y hy
    obtain ⟨w, hwF, rfl⟩ := List.mem_map.mp hy
    have hwpre : w ∈ pre := (List.mem_filter.mp hwF).1
    have hws : 0 < stockOfVal w := by
      have := (List.mem_filter.mp hwF).2
      simpa using this
    have hwxs : w ∈ xs := by
      rw [hxs]
      exact List.mem_append_left _ hwpre
    have hwd : w.isDict = true := hdict w hwxs
    by_contra hcon
    rw [Bool.not_eq_false] at hcon
    rw [keyLe_mutate_iff w a hwd had hws ha] at hcon
    obtain ⟨h1, h2⟩ := hopt w hwxs hws
    rcases hcon with h3 | ⟨h3, h4⟩
    · omega
    · have heq : stockOfVal w = stockOfVal a := by omega
      have := h2 heq
      exact hpre w hwpre hws ⟨heq, le_antisymm h4 this⟩
  have hmin : ∀ y ∈ (pre.filter (fun v => decide (0 < stockOfVal v))).map mutateComp ++
      mutateComp a :: ((mid ++ b :: post).filter (fun v => decide (0 < stockOfVal v))).map mutateComp,
      keyLe (mutateComp a) y = true := by
    intro y hy
    rw [← hmapsplit] at hy
    obtain ⟨w, hwF, rfl⟩ := List.mem_map.mp hy
    have hwxs : w ∈ xs := (List.mem_filter.mp hwF).1
    have hws : 0 < stockOfVal w := by
      have := (List.mem_filter.mp hwF).2
      simpa using this
    have hwd : w.isDict = true := hdict w hwxs
    rw [keyLe_mutate_iff a w had hwd ha hws]
    obtain ⟨h1, h2⟩ := hopt w hwxs hws
    rcases lt_or_eq_of_le h1 with h3 | h3
    · exact Or.inl (by omega)
    · exact Or.inr ⟨by omega, h2 h3⟩
  have hhead := head_mergeSort_first keyLe keyLe_trans keyLe_total (mutateComp a)
    (((mid ++ b :: post).filter (fun v => decide (0 < stockOfVal v))).map mutateComp)
    ((pre.filter (fun v => decide (0 < stockOfVal v))).map mutateComp) hu hmin
  rw [hsel, hmapsplit, hhead]

/-- Witness for C7 at a concrete list: two tied optimal records (stock 5,
price 1.5) with a strictly worse record in front; the earlier of the two tied
records is returned. -/
theorem select_best_part_stable_witness :
    select_best_part (.list ([PyVal.dict [("stock", PyVal.int 4)]] ++
        PyVal.dict [("stock", PyVal.int 5), ("price", PyVal.str "1.5"), ("id", PyVal.int 1)] ::
        ([] ++ PyVal.dict [("stock", PyVal.int 5), ("price", PyVal.str "1.50"), ("id", PyVal.int 2)] :: []))) =
      Except.ok (Option.some (mutateComp
          (PyVal.dict [("stock", PyVal.int 5), ("price", PyVal.str "1.5"), ("id", PyVal.int 1)])),
        .list (([PyVal.dict [("stock", PyVal.int 4)]] ++
          PyVal.dict [("stock", PyVal.int 5), ("price", PyVal.str "1.5"), ("id", PyVal.int 1)] ::
          ([] ++ PyVal.dict [("stock", PyVal.int 5), ("price", PyVal.str "1.50"), ("id", PyVal.int 2)] :: [])).map
            mutateComp)) :=
  select_best_part_stable
    [PyVal.dict [("stock", PyVal.int 4)]] []
    [PyVal.dict [("stock", PyVal.int 5), ("price", PyVal.str "1.50"), ("id", PyVal.int 2)]].tail
    (PyVal.dict [("stock", PyVal.int 5), ("price", PyVal.str "1.5"), ("id", PyVal.int 1)])
    (PyVal.dict [("stock", PyVal.int 5), ("price", PyVal.str "1.50"), ("id", PyVal.int 2)])
    (by intro v hv; fin_cases hv <;> rfl)
    (by decide) (by decide) (by decide) (by decide)
    (by intro w hw hws; fin_cases hw <;> exact ⟨by decide, by decide⟩)
    (by intro w hw hws; fin_cases hw; decide)

/-- Lookup inside a dict-valued `PyVal`. -/
def lookupVal (v : PyVal) (k : String) : Option PyVal :=
  match v with
  | .dict d => lookupKey d k
  | _ => Option.none

theorem mutateComp_eq_self (v : PyVal) (h : stockOfVal v ≤ 0) : mutateComp v = v := by
  cases v with
  | dict d =>
    have : ¬ 0 < stockOfDict d := by
      simp only [stockOfVal] at h
      omega
    simp [mutateComp, if_neg this]
  | none => rfl
  | bool b => rfl
  | int n => rfl
  | float q => rfl
  | str s => rfl
  | list ys => rfl

theorem map_mutateComp_id (xs : List PyVal) (h : ∀ v ∈ xs, stockOfVal v ≤ 0) :
    xs.map mutateComp = xs := by
  induction xs with
  | nil => rfl
  | cons v rest ih =>
    rw [List.map_cons, mutateComp_eq_self v (h v (List.mem_cons_self v rest)),
      ih (fun w hw => h w (List.mem_cons_of_mem v hw))]

/-- C10: `select_best_part` mutates its input: every element with parsed
stock `> 0` gets a `'_stock'` key set (added or overwritten) to that stock as
a side effect, while out-of-stock elements — and all other keys of mutated
elements — are left unchanged. -/
theorem select_best_part_mutates (xs : List PyVal) (hdict : ∀ v ∈ xs, v.isDict = true) :
    ∃ ro, select_best_part (.list xs) = Except.ok (ro, .list (xs.map mutateComp)) ∧
      ∀ v ∈ xs,
        (0 < stockOfVal v →
          lookupVal (mutateComp v) "_stock" = Option.some (.int (stockOfVal v)) ∧
          ∀ k, k ≠ "_stock" → lookupVal (mutateComp v) k = lookupVal v k) ∧
        (stockOfVal v ≤ 0 → mutateComp v = v) := by
  have helem : ∀ v ∈ xs,
      (0 < stockOfVal v →
        lookupVal (mutateComp v) "_stock" = Option.some (.int (stockOfVal v)) ∧
        ∀ k, k ≠ "_stock" → lookupVal (mutateComp v) k = lookupVal v k) ∧
      (stockOfVal v ≤ 0 → mutateComp v = v) := by
    intro v hv
    constructor
    · intro hs
      obtain ⟨d, rfl⟩ := isDict_exists (hdict v hv)
      have hs' : 0 < stockOfDict d := hs
      constructor
      · simp [mutateComp, if_pos hs', lookupVal, lookupKey_dictSet_self, stockOfVal]
      · intro k hk
        simp [mutateComp, if_pos hs', lookupVal, lookupKey_dictSet_ne d "_stock" k _ hk]
    · exact mutateComp_eq_self v
  match hxs : xs with
  | [] => exact ⟨Option.none, rfl, helem⟩
  | x :: t =>
    by_cases hfil : (x :: t).filter (fun v => decide (0 < stockOfVal v)) = []
    · have hns : ∀ v ∈ x :: t, stockOfVal v ≤ 0 := by
        intro v hv
        by_contra hcon
        have : v ∈ (x :: t).filter (fun v => decide (0 < stockOfVal v)) :=
          List.mem_filter.mpr ⟨hv, by simp; omega⟩
        rw [hfil] at this
        exact (List.not_mem_nil v) this
      refine ⟨Option.some x, ?_, helem⟩
      rw [select_best_part_no_stock x t hdict hfil, map_mutateComp_id _ hns]
    · rw [← hxs] at hdict hfil helem ⊢
      rw [select_best_part_instock xs hdict hfil]
      exact ⟨_, rfl, helem⟩

/-- Witness for C10 at a concrete mixed list. -/
theorem select_best_part_mutates_witness :
    ∃ ro, select_best_part (.list [PyVal.dict [("stock", PyVal.int 7)], PyVal.dict []]) =
      Except.ok (ro, .list ([PyVal.dict [("stock", PyVal.int 7)], PyVal.dict []].map mutateComp)) ∧
      ∀ v ∈ [PyVal.dict [("stock", PyVal.int 7)], PyVal.dict []],
        (0 < stockOfVal v →
          lookupVal (mutateComp v) "_stock" = Option.some (.int (stockOfVal v)) ∧
          ∀ k, k ≠ "_stock" → lookupVal (mutateComp v) k = lookupVal v k) ∧
        (stockOfVal v ≤ 0 → mutateComp v = v) :=
  select_best_part_mutates _ (by intro v hv; fin_cases hv <;> rfl)

/-! ### Error-handling claims -/

theorem isNet_or_isLog (e : Effect) : e.isNet = true ∨ e.isLog = true := by
  cases e with
  | netGet q => exact Or.inl rfl
  | netTokenPost => exact Or.inl rfl
  | netDkSearch t => exact Or.inl rfl
  | netMouserSearch t => exact Or.inl rfl
  | logWarning t => exact Or.inr rfl
  | logError t => exact Or.inr rfl

theorem search_components_bad (oracle : JlcQuery → HttpOutcome) (t : String)
    (pkg : Option String) (l : Nat)
    (h : badOutcome (oracle ⟨t, if optTruthy pkg then pkg else Option.none, l⟩) = true) :
    ∃ e : Effect, e.isLog = true ∧
      search_components oracle t pkg l =
        (.list [], [.netGet ⟨t, if optTruthy pkg then pkg else Option.none, l⟩, e]) := by
  cases ho : oracle ⟨t, if optTruthy pkg then pkg else Option.none, l⟩ with
  | failure =>
    exact ⟨.logError "JLCSearch search error", rfl, by simp [search_components, ho]⟩
  | response st body =>
    rw [ho] at h
    simp only [badOutcome, Bool.or_eq_true, bne_iff_ne, ne_eq, Option.isNone_iff_eq_none] at h
    by_cases hst : st = 200
    · have hb : body = Option.none := by
        rcases h with h | h
        · exact absurd hst h
        · exact h
      subst hb
      exact ⟨.logError "JLCSearch search error", rfl, by simp [search_components, ho, hst]⟩
    · exact ⟨.logWarning "JLCSearch API error", rfl, by simp [search_components, ho, hst]⟩

theorem search_jlcpcb_all_bad (oracle : JlcQuery → HttpOutcome) (value : String)
    (footprint manufacturer mfg_part : Option String)
    (hj : ∀ q, badOutcome (oracle q) = true) :
    (search_jlcpcb oracle value footprint manufacturer mfg_part).1 = Except.ok [] := by
  obtain ⟨e2, _, hsc2⟩ := search_components_bad oracle value footprint 10 (hj _)
  obtain ⟨e3, _, hsc3⟩ := search_components_bad oracle value Option.none 10 (hj _)
  by_cases hm : optTruthy mfg_part = true
  · obtain ⟨e1, _, hsc1⟩ := search_components_bad oracle
      (if optTruthy manufacturer then manufacturer.getD "" ++ " " ++ mfg_part.getD ""
       else mfg_part.getD "") Option.none 10 (hj _)
    by_cases hf : optTruthy footprint = true
    · simp [search_jlcpcb, hm, hf, hsc1, hsc2, pyTruthy]
    · simp [search_jlcpcb, hm, hf, hsc1, hsc3, pyTruthy]
  · by_cases hf : optTruthy footprint = true
    · simp [search_jlcpcb, hm, hf, hsc2, pyTruthy]
    · simp [search_jlcpcb, hm, hf, hsc3, pyTruthy]

theorem dkAfterToken_bad (s : HttpOutcome) (term value : String) (footprint : Option String)
    (h : badOutcome s = true) : (dkAfterToken s term value footprint).1 = [] := by
  cases s with
  | failure => rfl
  | response st body =>
    simp only [badOutcome, Bool.or_eq_true, bne_iff_ne, ne_eq, Option.isNone_iff_eq_none] at h
    by_cases hst : st = 200
    · have hb : body = Option.none := by
        rcases h with h | h
        · exact absurd hst h
        · exact h
      subst hb
      simp [dkAfterToken, hst]
    · simp [dkAfterToken, hst]

theorem search_digikey_bad (cfg : Config) (t s : HttpOutcome) (value : String)
    (footprint ctype : Option String)
    (h : badOutcome t = true ∨ badOutcome s = true) :
    (search_digikey cfg t s value footprint ctype).1 = [] := by
  by_cases hcfg : optTruthy cfg.digikey_client_id = false
  · simp [search_digikey, hcfg]
  · rw [Bool.not_eq_false] at hcfg
    cases t with
    | failure => simp [search_digikey, hcfg]
    | response st body =>
      by_cases hst : st = 200
      · cases body with
        | none => simp [search_digikey, hcfg, hst]
        | some tj =>
          have hs : badOutcome s = true := by
            rcases h with h | h
            · subst hst
              simp [badOutcome] at h
            · exact h
          cases tj with
          | dict d => simp [search_digikey, hcfg, hst, dkAfterToken_bad s _ value footprint hs]
          | none => simp [search_digikey, hcfg, hst]
          | bool b => simp [search_digikey, hcfg, hst]
          | int n => simp [search_digikey, hcfg, hst]
          | float q => simp [search_digikey, hcfg, hst]
          | str u => simp [search_digikey, hcfg, hst]
          | list ys => simp [search_digikey, hcfg, hst]
      · simp [search_digikey, hcfg, hst]

theorem search_mouser_bad (cfg : Config) (s : HttpOutcome) (value : String)
    (footprint ctype : Option String) (h : badOutcome s = true) :
    (search_mouser cfg s value footprint ctype).1 = [] := by
  by_cases hcfg : optTruthy cfg.mouser_api_key = false
  · simp [search_mouser, hcfg]
  · rw [Bool.not_eq_false] at hcfg
    cases s with
    | failure => simp [search_mouser, hcfg]
    | response st body =>
      simp only [badOutcome, Bool.or_eq_true, bne_iff_ne, ne_eq, Option.isNone_iff_eq_none] at h
      by_cases hst : st = 200
      · have hb : body = Option.none := by
          rcases h with h | h
          · exact absurd hst h
          · exact h
        subst hb
        simp [search_mouser, hcfg, hst]
      · simp [search_mouser, hcfg, hst]

/-- C2: on any backend behaviour among network failure, non-2xx HTTP status,
or malformed JSON, each adapter call raises no exception, returns an empty
sequence, and its observable side effects are only network requests and
warning/error log events. -/
theorem adapters_empty_on_bad_backend (oracle : JlcQuery → HttpOutcome)
    (t s m : HttpOutcome) (cfg : Config) (value : String)
    (footprint manufacturer mfg_part ctype : Option String)
    (hj : ∀ q, badOutcome (oracle q) = true)
    (hdk : badOutcome t = true ∨ badOutcome s = true)
    (hm : badOutcome m = true) :
    ((search_jlcpcb oracle value footprint manufacturer mfg_part).1 = Except.ok [] ∧
      ∀ e ∈ (search_jlcpcb oracle value footprint manufacturer mfg_part).2,
        e.isNet = true ∨ e.isLog = true) ∧
    ((search_digikey cfg t s value footprint ctype).1 = [] ∧
      ∀ e ∈ (search_digikey cfg t s value footprint ctype).2,
        e.isNet = true ∨ e.isLog = true) ∧
    ((search_mouser cfg m value footprint ctype).1 = [] ∧
      ∀ e ∈ (search_mouser cfg m value footprint ctype).2,
        e.isNet = true ∨ e.isLog = true) :=
  ⟨⟨search_jlcpcb_all_bad oracle value footprint manufacturer mfg_part hj,
      fun e _ => isNet_or_isLog e⟩,
    ⟨search_digikey_bad cfg t s value footprint ctype hdk, fun e _ => isNet_or_isLog e⟩,
    ⟨search_mouser_bad cfg m value footprint ctype hm, fun e _ => isNet_or_isLog e⟩⟩

/-- Witness for C2: all backends fail at the network level, with credentials
configured. -/
theorem adapters_empty_on_bad_backend_witness :
    ((search_jlcpcb (fun _ => HttpOutcome.failure) "100K" Option.none Option.none
        (Option.some "ABC123")).1 = Except.ok [] ∧
      ∀ e ∈ (search_jlcpcb (fun _ => HttpOutcome.failure) "100K" Option.none Option.none
        (Option.some "ABC123")).2, e.isNet = true ∨ e.isLog = true) ∧
    ((search_digikey ⟨Option.some "id", Option.some "sec", Option.some "key"⟩
        HttpOutcome.failure (HttpOutcome.response 503 Option.none) "100K" Option.none
        Option.none).1 = [] ∧
      ∀ e ∈ (search_digikey ⟨Option.some "id", Option.some "sec", Option.some "key"⟩
        HttpOutcome.failure (HttpOutcome.response 503 Option.none) "100K" Option.none
        Option.none).2, e.isNet = true ∨ e.isLog = true) ∧
    ((search_mouser ⟨Option.some "id", Option.some "sec", Option.some "key"⟩
        (HttpOutcome.response 503 Option.none) "100K" Option.none Option.none).1 = [] ∧
      ∀ e ∈ (search_mouser ⟨Option.some "id", Option.some "sec", Option.some "key"⟩
        (HttpOutcome.response 503 Option.none) "100K" Option.none Option.none).2,
        e.isNet = true ∨ e.isLog = true) :=
  adapters_empty_on_bad_backend (fun _ => HttpOutcome.failure) HttpOutcome.failure
    (HttpOutcome.response 503 Option.none) (HttpOutcome.response 503 Option.none)
    ⟨Option.some "id", Option.some "sec", Option.some "key"⟩ "100K"
    Option.none Option.none (Option.some "ABC123") Option.none
    (fun _ => rfl) (Or.inl rfl) rfl

/-- C9: each distributor adapter, invoked under any configuration in which its
own credentials are absent (whatever the other supplier's credentials), returns
an empty sequence, performs no network call, raises no exception, and logs
exactly one warning. -/
theorem distributor_adapters_skip_without_credentials :
    (∀ (cfg : Config) (t s : HttpOutcome) (value : String) (footprint ctype : Option String),
      optTruthy cfg.digikey_client_id = false →
      search_digikey cfg t s value footprint ctype =
        ([], [.logWarning "Digi-Key API keys not configured"])) ∧
    (∀ (cfg : Config) (m : HttpOutcome) (value : String) (footprint ctype : Option String),
      optTruthy cfg.mouser_api_key = false →
      search_mouser cfg m value footprint ctype =
        ([], [.logWarning "Mouser API key not configured"])) := by
  constructor
  · intro cfg t s value footprint ctype h1
    simp [search_digikey, h1]
  · intro cfg m value footprint ctype h2
    simp [search_mouser, h2]

/-- Witness for C9 at the asymmetric configurations: Digi-Key invoked with no
client id but a Mouser key configured, and Mouser invoked with no API key but
Digi-Key credentials configured. -/
theorem distributor_adapters_skip_without_credentials_witness :
    search_digikey ⟨Option.none, Option.none, Option.some "mouser-key"⟩ HttpOutcome.failure
        HttpOutcome.failure "100K" Option.none Option.none =
      ([], [.logWarning "Digi-Key API keys not configured"]) ∧
    search_mouser ⟨Option.some "dk-id", Option.some "dk-secret", Option.none⟩
        HttpOutcome.failure "100K" Option.none Option.none =
      ([], [.logWarning "Mouser API key not configured"]) :=
  ⟨distributor_adapters_skip_without_credentials.1
      ⟨Option.none, Option.none, Option.some "mouser-key"⟩ HttpOutcome.failure
      HttpOutcome.failure "100K" Option.none Option.none rfl,
    distributor_adapters_skip_without_credentials.2
      ⟨Option.some "dk-id", Option.some "dk-secret", Option.none⟩
      HttpOutcome.failure "100K" Option.none Option.none rfl⟩

/-! ### The aggregation contract of `search_all` -/

/-- C8: whenever `search_all` returns a mapping, a supplier's key is present
in it if and only if that supplier's adapter returned a nonempty result list. -/
theorem search_all_key_iff_nonempty (cfg : Config) (b : Behaviour) (value : String)
    (footprint ctype manufacturer mfg_part : Option String)
    (m : List (String × List PartSearchResult)) (tr : List Effect)
    (h : search_all cfg b value footprint ctype manufacturer mfg_part = (Except.ok m, tr)) :
    ∃ jl t1, search_jlcpcb b.jlc value footprint manufacturer mfg_part = (Except.ok jl, t1) ∧
      (("JLCPCB" ∈ m.map Prod.fst) ↔ jl ≠ []) ∧
      (("Digi-Key" ∈ m.map Prod.fst) ↔
        (search_digikey cfg b.dkToken b.dkSearch value footprint ctype).1 ≠ []) ∧
      (("Mouser" ∈ m.map Prod.fst) ↔
        (search_mouser cfg b.mouser value footprint ctype).1 ≠ []) := by
  unfold search_all at h
  cases hsj : search_jlcpcb b.jlc value footprint manufacturer mfg_part with
  | mk jr t1 =>
    rw [hsj] at h
    cases jr with
    | error e => simp at h
    | ok jl =>
      refine ⟨jl, t1, rfl, ?_⟩
      simp only [Prod.mk.injEq, Except.ok.injEq] at h
      obtain ⟨hm, -⟩ := h
      subst hm
      have ne1 : ("JLCPCB" : String) ≠ "Digi-Key" := by decide
      have ne2 : ("JLCPCB" : String) ≠ "Mouser" := by decide
      have ne3 : ("Digi-Key" : String) ≠ "JLCPCB" := by decide
      have ne4 : ("Digi-Key" : String) ≠ "Mouser" := by decide
      have ne5 : ("Mouser" : String) ≠ "JLCPCB" := by decide
      have ne6 : ("Mouser" : String) ≠ "Digi-Key" := by decide
      by_cases h1 : jl.isEmpty <;>
        by_cases h2 : ((search_digikey cfg b.dkToken b.dkSearch value footprint ctype).1).isEmpty <;>
        by_cases h3 : ((search_mouser cfg b.mouser value footprint ctype).1).isEmpty <;>
        simp [h1, h2, h3, List.isEmpty_iff, ne1, ne2, ne3, ne4, ne5, ne6] <;>
        simp_all [List.isEmpty_iff]

/-- Witness for C8: one supplier (Mouser) succeeds with one record, the
others fail or are unconfigured; only the Mouser key appears. -/
theorem search_all_key_iff_nonempty_witness :
    ∃ jl t1, search_jlcpcb (fun _ => HttpOutcome.failure) "100K" Option.none Option.none
        Option.none = (Except.ok jl, t1) ∧
      (("JLCPCB" ∈ ([("Mouser",
          [{ supplier := "Mouser", part_number := .str "", manufacturer := .str "",
             description := .str "", value := "100K", footprint := .str "",
             stock := .int 5, price := 0, url := .str "", datasheet := .str "",
             lcsc_part := .str "" }])] :
          List (String × List PartSearchResult)).map Prod.fst) ↔ jl ≠ []) ∧
      (("Digi-Key" ∈ ([("Mouser",
          [{ supplier := "Mouser", part_number := .str "", manufacturer := .str "",
             description := .str "", value := "100K", footprint := .str "",
             stock := .int 5, price := 0, url := .str "", datasheet := .str "",
             lcsc_part := .str "" }])] :
          List (String × List PartSearchResult)).map Prod.fst) ↔
        (search_digikey ⟨Option.none, Option.none, Option.some "key"⟩ HttpOutcome.failure
          HttpOutcome.failure "100K" Option.none Option.none).1 ≠ []) ∧
      (("Mouser" ∈ ([("Mouser",
          [{ supplier := "Mouser", part_number := .str "", manufacturer := .str "",
             description := .str "", value := "100K", footprint := .str "",
             stock := .int 5, price := 0, url := .str "", datasheet := .str "",
             lcsc_part := .str "" }])] :
          List (String × List PartSearchResult)).map Prod.fst) ↔
        (search_mouser ⟨Option.none, Option.none, Option.some "key"⟩
          (HttpOutcome.response 200 (Option.some (.dict [("SearchResults",
            .dict [("Parts", .list [.dict [("Availability", .str "5 In Stock")]])])])))
          "100K" Option.none Option.none).1 ≠ []) :=
  search_all_key_iff_nonempty ⟨Option.none, Option.none, Option.some "key"⟩
    ⟨fun _ => HttpOutcome.failure, HttpOutcome.failure, HttpOutcome.failure,
      HttpOutcome.response 200 (Option.some (.dict [("SearchResults",
        .dict [("Parts", .list [.dict [("Availability", .str "5 In Stock")]])])]))⟩
    "100K" Option.none Option.none Option.none Option.none _ _ rfl

/-! ### The JLCPCB part-number fast path (C5) -/

/-- Backend behaviour refuting C5 as stated: the part-number query returns one
component, the empty JSON object. -/
def c5Oracle : JlcQuery → HttpOutcome := fun q =>
  if q.term = "ABC123" then
    .response 200 (Option.some (.dict [("components", .list [.dict []])]))
  else .response 200 (Option.some (.dict [("components", .list [])]))

/-- C5 counterexample: with a manufacturer part number supplied and the
part-number search returning one component (an empty object, so out of stock
and falsy as a dict), `search_jlcpcb` returns zero records — not one — and
does perform the general value search (`if best_match:` rejects the falsy
best candidate and falls through). -/
theorem search_jlcpcb_fast_path_counterexample :
    (search_components c5Oracle "ABC123" Option.none 10).1 =
      PyVal.list [PyVal.dict []] ∧
    search_jlcpcb c5Oracle "100K" Option.none Option.none (Option.some "ABC123") =
      (Except.ok [], [Effect.netGet ⟨"ABC123", Option.none, 10⟩,
        Effect.netGet ⟨"100K", Option.none, 10⟩]) :=
  ⟨rfl, rfl⟩

theorem select_best_part_some_isDict (cs : List PyVal)
    (hdict : ∀ v ∈ cs, v.isDict = true) (best : PyVal) (mu : PyVal)
    (hsel : select_best_part (.list cs) = Except.ok (Option.some best, mu)) :
    best.isDict = true := by
  match hcs : cs with
  | [] =>
    simp [select_best_part, pyTruthy, List.isEmpty_nil] at hsel
  | x :: t =>
    by_cases hfil : (x :: t).filter (fun v => decide (0 < stockOfVal v)) = []
    · rw [select_best_part_no_stock x t hdict hfil] at hsel
      simp only [Except.ok.injEq, Prod.mk.injEq, Option.some.injEq] at hsel
      rw [← hsel.1]
      exact hdict x (List.mem_cons_self x t)
    · rw [select_best_part_instock (x :: t) hdict hfil] at hsel
      obtain ⟨w, ws, hF⟩ := List.exists_cons_of_ne_nil hfil
      rw [hF] at hsel
      obtain ⟨hd, rest, hms, hmem, -⟩ :=
        head_mergeSort_min keyLe keyLe_trans keyLe_total (mutateComp w) (ws.map mutateComp)
      rw [List.map_cons, hms] at hsel
      simp only [List.head?_cons, Except.ok.injEq, Prod.mk.injEq, Option.some.injEq] at hsel
      have hmem' : hd ∈ (w :: ws).map mutateComp := by
        have : mutateComp w :: ws.map mutateComp = (w :: ws).map mutateComp := by simp
        rw [← this]
        exact hmem
      obtain ⟨v, hvF, hveq⟩ := List.mem_map.mp hmem'
      rw [← hF] at hvF
      have hvd : v.isDict = true := hdict v (List.mem_filter.mp hvF).1
      rw [← hsel.1, ← hveq, isDict_mutateComp]
      exact hvd

/-- C5 (amended): when a manufacturer part number is supplied, the
part-number search returns a (nonempty) list of JSON-object components, and
the best candidate selected from them is truthy (a non-empty object),
`search_jlcpcb` returns exactly one record — the parsed best candidate — and
the general value/footprint search is never performed: the only network
request is the part-number query. -/
theorem search_jlcpcb_fast_path (oracle : JlcQuery → HttpOutcome) (value : String)
    (footprint manufacturer mfg_part : Option String)
    (hm : optTruthy mfg_part = true)
    (cs : List PyVal) (hdict : ∀ v ∈ cs, v.isDict = true) (hne : cs ≠ [])
    (hres : (search_components oracle
        (if optTruthy manufacturer then manufacturer.getD "" ++ " " ++ mfg_part.getD ""
         else mfg_part.getD "") Option.none 10).1 = PyVal.list cs)
    (best : PyVal) (mu : PyVal)
    (hsel : select_best_part (PyVal.list cs) = Except.ok (Option.some best, mu))
    (htruthy : pyTruthy best = true) :
    ∃ r, parse_jlcpcb_result best value footprint = Except.ok r ∧
      search_jlcpcb oracle value footprint manufacturer mfg_part =
        (Except.ok [r],
          [Effect.netGet
            ⟨if optTruthy manufacturer then manufacturer.getD "" ++ " " ++ mfg_part.getD ""
              else mfg_part.getD "", Option.none, 10⟩]) := by
  set term := (if optTruthy manufacturer then manufacturer.getD "" ++ " " ++ mfg_part.getD ""
    else mfg_part.getD "") with hterm
  -- the part-number call must have succeeded, so its trace is the single GET
  have hsc : search_components oracle term Option.none 10 =
      (PyVal.list cs, [Effect.netGet ⟨term, Option.none, 10⟩]) := by
    by_cases hbad : badOutcome (oracle ⟨term, Option.none, 10⟩) = true
    · obtain ⟨e, -, hbadeq⟩ := search_components_bad oracle term Option.none 10 (by
        simpa [optTruthy] using hbad)
      rw [hbadeq] at hres
      simp only at hres
      injection hres with hres'
      exact absurd hres'.symm hne
    · cases ho : oracle ⟨term, Option.none, 10⟩ with
      | failure => rw [ho] at hbad; exact absurd rfl hbad
      | response st body =>
        rw [ho] at hbad
        simp only [badOutcome, Bool.or_eq_true, bne_iff_ne, ne_eq,
          Option.isNone_iff_eq_none, not_or, Decidable.not_not] at hbad
        obtain ⟨hst, hbody⟩ := hbad
        subst hst
        cases body with
        | none => exact absurd rfl hbody
        | some data =>
          -- a non-dict body would have produced `[]`, contradicting `cs ≠ []`
          by_cases hd : data.isDict = true
          · obtain ⟨d, rfl⟩ := isDict_exists hd
            exact Prod.ext hres (by simp [search_components, optTruthy, ho])
          · exfalso
            have hf : (search_components oracle term Option.none 10).1 = PyVal.list [] := by
              cases data <;> simp_all [search_components, optTruthy, PyVal.isDict]
            rw [hf] at hres
            injection hres with h
            exact hne h.symm
  obtain ⟨d, hbd⟩ := isDict_exists (select_best_part_some_isDict cs hdict best mu hsel)
  refine ⟨_, by rw [hbd]; rfl, ?_⟩
  have htr : pyTruthy (PyVal.list cs) = true := by
    have hcs : cs.isEmpty = false := by
      cases cs with
      | nil => exact absurd rfl hne
      | cons c t => rfl
    simp [pyTruthy, hcs]
  simp only [search_jlcpcb, hm, if_pos, ← hterm, hsc, htr, hsel, htruthy, if_true]
  rw [hbd]
  rfl

/-- Backend behaviour for the C5 witness: the part-number query yields one
component, every other query yields none. -/
def fastPathOracle : JlcQuery → HttpOutcome := fun q =>
  if q.term = "Acme ABC123" then
    .response 200 (Option.some (.dict [("components",
      .list [.dict [("mfrPartNo", .str "ABC123")]])]))
  else .response 200 (Option.some (.dict [("components", .list [])]))

/-- Witness for the amended C5 at a concrete backend behaviour. -/
theorem search_jlcpcb_fast_path_witness :
    ∃ r, parse_jlcpcb_result (PyVal.dict [("mfrPartNo", PyVal.str "ABC123")]) "100K"
        Option.none = Except.ok r ∧
      search_jlcpcb fastPathOracle "100K" Option.none (Option.some "Acme")
          (Option.some "ABC123") =
        (Except.ok [r],
          [Effect.netGet
            ⟨if optTruthy (Option.some "Acme") then
                (Option.some "Acme").getD "" ++ " " ++ (Option.some "ABC123").getD ""
              else (Option.some "ABC123").getD "", Option.none, 10⟩]) :=
  search_jlcpcb_fast_path fastPathOracle "100K" Option.none (Option.some "Acme")
    (Option.some "ABC123") rfl [PyVal.dict [("mfrPartNo", PyVal.str "ABC123")]]
    (by intro v hv; fin_cases hv <;> rfl) (by simp)
    rfl (PyVal.dict [("mfrPartNo", PyVal.str "ABC123")])
    (PyVal.list [PyVal.dict [("mfrPartNo", PyVal.str "ABC123")]]) rfl rfl

/-! ### Field normalisation bugs (C3, C4) -/

/-- C3 (code bug): the Digi-Key mapper performs no coercion on
`QuantityAvailable` — the unparsable string `"N/A"` lands verbatim in the
`stock` field (annotated `stock: int` in the dataclass) instead of being
normalised to `0`. -/
theorem digikey_stock_not_normalized :
    parse_digikey_result (.dict [("QuantityAvailable", PyVal.str "N/A")]) "100K" Option.none =
      Except.ok
        { supplier := "Digi-Key", part_number := .str "", manufacturer := .str "",
          description := .str "", value := "100K", footprint := .str "",
          stock := PyVal.str "N/A", price := 0, url := .str "", datasheet := .str "",
          lcsc_part := .str "" } :=
  rfl

/-- C4 (code bug): with `PriceBreaks` nonempty but its first entry lacking the
`Price` key, the Mouser mapper raises `AttributeError` (the `0.0` default of
`.get('Price', 0.0)` has no `.replace`, and `except (ValueError, KeyError)`
does not catch `AttributeError`) instead of defaulting the price to `0.0`. -/
theorem mouser_price_absent_raises :
    parse_mouser_result (.dict [("PriceBreaks", PyVal.list [PyVal.dict []])]) "100K"
        Option.none = Except.error PyErr.attributeError :=
  rfl

end PartSearch
